import Mathlib

/-!
Verification development for the "dependent relationships" extension of an
entity store (Ember Data v1.13.x addon).  The addon makes an entity's dirty
state depend on its dependent relationships: own-attribute dirtiness, the
divergence of each snapshotted dependent relationship from its baseline, and
the dirty flag of the entities currently held through a dependent
relationship.

Shallow embedding conventions:
  * Records are identified by natural numbers (`RecordId`); the identity-map
    guarantees a record id denotes one record, so identity comparison of
    records is equality of ids.
  * A record's mutable state (`RecordState`) carries: whether it has pending
    own-attribute modifications (`Object.keys(internalModel._attributes).length`
    as a boolean), its relationship descriptors (`relationshipsByName` filtered
    to the fields used by the addon), the current resolved value of each
    relationship (what `Ember.get(record, name)` returns synchronously), the
    set of relationship names whose asynchronous resolution fails (rejecting
    the promise seen by `Ember.RSVP.all`), the dependent-relationship snapshot
    hash (`internalModel._dependentRelationships`), and the state-machine
    state (`internalModel.currentState`).
  * A store is a total map from ids to record states.
  * JavaScript exceptions are modelled with `Except JSErr`.  The two
    exceptions that actually arise are calling `.toArray()` on a value that
    is not an array (single reference, `null`, or `undefined`), and
    `Ember.get(null/undefined, ...)`.
  * `hasDirtyAttributes` of a record is `currentState.isDirty`, a flag fully
    determined by the state-machine state (`stateIsDirty` below).
-/

/-- Identity of a record in the store's identity map. -/
def RecordId : Type := Nat

deriving instance DecidableEq, Repr for RecordId

instance : OfNat RecordId n := ⟨(n : Nat)⟩

/-- Relationship cardinality (`relationshipMeta.kind`). -/
inductive RelKind : Type
  | belongsTo
  | hasMany
deriving DecidableEq, Repr

/-- The per-type relationship descriptor fields the addon reads:
`meta.kind` and `meta.options.dependent`. -/
structure RelMeta : Type where
  kind : RelKind
  dependent : Bool
deriving DecidableEq, Repr

/-- Current resolved value of a relationship: a `belongsTo` holds one record
or `null`; a `hasMany` holds a `DS.ManyArray` of records. -/
inductive RelValue : Type
  | single : Option RecordId → RelValue
  | collection : List RecordId → RelValue
deriving DecidableEq, Repr

/-- A value stored in `internalModel._dependentRelationships`: the snapshot of
a `belongsTo` is the record itself, the snapshot of a `hasMany` is the plain
array produced by `relationship.toArray()`. -/
inductive SnapValue : Type
  | record : RecordId → SnapValue
  | array : List RecordId → SnapValue
deriving DecidableEq, Repr

/-- The state-machine states reachable in this development (leaves of
`DS.RootState` that the addon touches). -/
inductive MachineState : Type
  | savedState
  | createdUncommitted
  | updatedUncommitted
  | createdInFlight
  | updatedInFlight
  | createdInvalid
  | updatedInvalid
  | deletedUncommitted
  | deletedInFlight
  | deletedSaved
deriving DecidableEq, Repr

/-- JavaScript runtime failures that the modelled code can raise. -/
inductive JSErr : Type
  | toArrayUndefined
  | getOnNull
  | outOfFuel
deriving DecidableEq, Repr

/-- Mutable state of one record (its model object plus its internal model). -/
structure RecordState : Type where
  attrsDirty : Bool
  relMeta : List (String × RelMeta)
  values : List (String × RelValue)
  failing : List String
  snapshots : List (String × SnapValue)
  mstate : MachineState
deriving DecidableEq, Repr

/-- The identity map: every id denotes a record state. -/
def Store : Type := RecordId → RecordState

/-- Lookup in a JavaScript-object-like association list (first match wins;
real JS objects have unique keys). -/
def lookupA {α : Type} : List (String × α) → String → Option α
  | [], _ => none
  | p :: ps, k => if p.1 = k then some p.2 else lookupA ps k

/-- JS-object assignment `obj[k] = v`: replace the first binding of `k`,
or append a new binding. -/
def setA {α : Type} : List (String × α) → String → α → List (String × α)
  | [], k, v => [(k, v)]
  | p :: ps, k, v => if p.1 = k then (k, v) :: ps else p :: setA ps k v

/-- Replace one record of the store. -/
def upd (st : Store) (i : RecordId) (r : RecordState) : Store :=
  fun j => if j = i then r else st j

/-- `record.currentState.isDirty`, the flag `hasDirtyAttributes` reads.
`loaded.saved` and `deleted.saved` are the clean states; every dirty-state
branch (`uncommitted`, `inFlight`, `invalid`) and the other deleted states
carry `isDirty: true`. -/
def stateIsDirty : MachineState → Bool
  | MachineState.savedState => false
  | MachineState.deletedSaved => false
  | _ => true

/-- States on which the addon stubs out `dependentRelationshipDidChange` with
`Ember.K` (lines 137-142 of the source): both `inFlight` states, both
`invalid` states, and the whole `deleted` branch. -/
def isFrozen : MachineState → Bool
  | MachineState.createdInFlight => true
  | MachineState.updatedInFlight => true
  | MachineState.createdInvalid => true
  | MachineState.updatedInvalid => true
  | MachineState.deletedUncommitted => true
  | MachineState.deletedInFlight => true
  | MachineState.deletedSaved => true
  | _ => false

/-- `Ember.get(record, name)` for a relationship name: the current value, or
`none` when the property is absent (`undefined`). -/
def getRelR (r : RecordState) (name : String) : Option RelValue :=
  lookupA r.values name

/-- JS truthiness of a relationship value: `null` and `undefined` are falsy;
a record or a `ManyArray` (even empty) is truthy. -/
def relTruthy : Option RelValue → Bool
  | none => false
  | some (RelValue.single none) => false
  | some (RelValue.single (some _)) => true
  | some (RelValue.collection _) => true

/-- `value.toArray()`: defined only on a `ManyArray`; on a record, `null` or
`undefined` the method does not exist and the call raises a `TypeError`. -/
def toArrayJS : Option RelValue → Except JSErr (List RecordId)
  | some (RelValue.collection xs) => Except.ok xs
  | _ => Except.error JSErr.toArrayUndefined

/-- `DS.Model#compare` added by the addon (source lines 253-255): identity
comparison, `0` when the two records are the same, `1` otherwise. -/
def compareRecords (r1 r2 : RecordId) : Int :=
  if r1 = r2 then 0 else 1

/-- `Ember.compare(value, originalValue) = 0` for the unsorted comparison of a
current relationship value against a snapshot value.  Identical references
compare equal; two arrays compare by length and then element-wise identity;
values of different `Ember.typeOf` (array vs record vs null) never compare
equal. -/
def emberEq : RelValue → SnapValue → Bool
  | RelValue.single (some x), SnapValue.record y => decide (compareRecords x y = 0)
  | RelValue.collection xs, SnapValue.array ys => decide (xs = ys)
  | _, _ => false

/-- Insert an id into a sorted list of ids (helper for `sortIds`). -/
def insertId (a : Nat) : List Nat → List Nat
  | [] => [a]
  | b :: bs => if a ≤ b then a :: b :: bs else b :: insertId a bs

/-- `array.sortBy('id')`: sort the member records by their id. -/
def sortIds : List Nat → List Nat
  | [] => []
  | a :: as => insertId a (sortIds as)

/-- `isRelatedRecordDirty(value)` (source lines 67-69): for an array, whether
any member's `hasDirtyAttributes` flag is set; for a single record, that
record's flag; `Ember.get(null, 'hasDirtyAttributes')` raises. -/
def isRelatedRecordDirty (st : Store) : RelValue → Except JSErr Bool
  | RelValue.collection xs => Except.ok (xs.any fun r => stateIsDirty (st r).mstate)
  | RelValue.single (some r) => Except.ok (stateIsDirty (st r).mstate)
  | RelValue.single none => Except.error JSErr.getOnNull

/-- `isRelationshipDirty(internalModel, key)` (source lines 72-77): take the
current value of the relationship, call `.toArray()` on it unconditionally,
and compare (`Ember.compare`) against the stored snapshot.  Comparing the
resulting array with a record snapshot, or with a missing (`undefined`)
snapshot, yields a nonzero comparison, i.e. dirty. -/
def isRelationshipDirty (r : RecordState) (key : String) : Except JSErr Bool := do
  let arr ← toArrayJS (getRelR r key)
  match lookupA r.snapshots key with
  | some (SnapValue.array ys) => Except.ok (decide (arr ≠ ys))
  | some (SnapValue.record _) => Except.ok true
  | none => Except.ok true

/-- One step of the `Ember.A(keys).any` loop in `isRecordDirty`:
`isRelationshipDirty(internalModel, key) || isRelatedRecordDirty(get(record, key))`
over the keys of the snapshot hash, with JS short-circuit evaluation. -/
def anyKeysDirty (st : Store) (id : RecordId) : List String → Except JSErr Bool
  | [] => Except.ok false
  | k :: ks => do
    let d1 ← isRelationshipDirty (st id) k
    if d1 then Except.ok true
    else do
      let d2 ← match getRelR (st id) k with
        | none => Except.error JSErr.getOnNull
        | some v => isRelatedRecordDirty st v
      if d2 then Except.ok true else anyKeysDirty st id ks

/-- `isRecordDirty(internalModel)` (source lines 80-92), the de facto dirty
check: own attributes first, then for every key of
`_dependentRelationships` the relationship-divergence check or the dirtiness
of the currently related records.  The snapshot hash always exists here
(`internalModelFor` creates it), so the function returns a boolean. -/
def isRecordDirty (st : Store) (id : RecordId) : Except JSErr Bool :=
  if (st id).attrsDirty then Except.ok true
  else anyKeysDirty st id ((st id).snapshots.map Prod.fst)

/-- Set only the state-machine state of one record. -/
def setMstate (st : Store) (id : RecordId) (s : MachineState) : Store :=
  upd st id { st id with mstate := s }

/-- `internalModel.send('becomeDirty')`: from `loaded.saved` the record
transitions to `loaded.updated.uncommitted`; in the `uncommitted`,
`inFlight` and `invalid` dirty states the event is `Ember.K`.  (No other
state receives this event on the paths modelled here.) -/
def sendBecomeDirty (st : Store) (id : RecordId) : Store :=
  match (st id).mstate with
  | MachineState.savedState => setMstate st id MachineState.updatedUncommitted
  | _ => st

/-- Entering `loaded.saved` runs its `setup` hook, which the addon replaces
with `savedSetup` (source lines 123-127, 150): if `isRecordDirty` the record
immediately becomes dirty again via `adapterDidDirty`, which sends
`becomeDirty`. -/
def enterSaved (st : Store) (id : RecordId) : Except JSErr Store := do
  let d ← isRecordDirty (setMstate st id MachineState.savedState) id
  Except.ok (if d then sendBecomeDirty (setMstate st id MachineState.savedState) id
    else setMstate st id MachineState.savedState)

/-- `internalModel.send('rolledBack')`: `loaded.updated.uncommitted` and the
`invalid` states transition to `loaded.saved` (running its `setup`);
`loaded.created.uncommitted` transitions to `deleted.saved` (a rolled-back
new record is removed); every other state ignores the event
(`RootState.rolledBack` is `Ember.K`). -/
def sendRolledBack (st : Store) (id : RecordId) : Except JSErr Store :=
  match (st id).mstate with
  | MachineState.updatedUncommitted => enterSaved st id
  | MachineState.createdInvalid => enterSaved st id
  | MachineState.updatedInvalid => enterSaved st id
  | MachineState.createdUncommitted => Except.ok (setMstate st id MachineState.deletedSaved)
  | _ => Except.ok st

/-- `internalModel.send('propertyWasReset')`: in the two `uncommitted` states
the addon's override (source lines 116-120, 145-146) sends `rolledBack` when
`isRecordDirty` is false; elsewhere the root default is `Ember.K`. -/
def sendPropertyWasReset (st : Store) (id : RecordId) : Except JSErr Store :=
  match (st id).mstate with
  | MachineState.createdUncommitted => do
      let d ← isRecordDirty st id
      if d then Except.ok st else sendRolledBack st id
  | MachineState.updatedUncommitted => do
      let d ← isRecordDirty st id
      if d then Except.ok st else sendRolledBack st id
  | _ => Except.ok st

/-- The event payload built by the observer (source lines 225-229): the
relationship name, the current value (a `ManyArray` already converted by
`toArray`), and the stored snapshot. -/
structure Ctx : Type where
  name : String
  value : RelValue
  original : SnapValue
deriving DecidableEq, Repr

/-- The state-machine handler `dependentRelationshipDidChange` installed on
`DS.RootState.loaded` (source lines 99-113): when both the current value and
the snapshot are arrays they are compared after `sortBy('id')` on both
sides, otherwise they are compared as-is; a nonzero comparison or a dirty
currently-related record sends `becomeDirty`, else `propertyWasReset`.  The
`||` short-circuits, so `isRelatedRecordDirty` only runs when the
comparison found no difference. -/
def dependentRelationshipDidChange (st : Store) (id : RecordId) (c : Ctx) :
    Except JSErr Store :=
  let cmpDirty : Bool :=
    match c.value, c.original with
    | RelValue.collection xs, SnapValue.array ys =>
        decide (sortIds xs ≠ sortIds ys)
    | v, o => ! emberEq v o
  if cmpDirty then Except.ok (sendBecomeDirty st id)
  else do
    let d ← isRelatedRecordDirty st c.value
    if d then Except.ok (sendBecomeDirty st id) else sendPropertyWasReset st id

/-- Dispatch of the `dependentRelationshipDidChange` event: the states listed
at source lines 137-142 (in-flight, invalid, deleted) received `Ember.K`, so
the event does nothing there; the remaining loaded states run the handler. -/
def sendDependentRelationshipDidChange (st : Store) (id : RecordId) (c : Ctx) :
    Except JSErr Store :=
  if isFrozen (st id).mstate then Except.ok st
  else dependentRelationshipDidChange st id c

/-- What the observer passes as `value`: `get(record, name)`, converted by
`toArray()` when it is an array (a plain copy of the member list in this
model); an absent value behaves like a missing reference. -/
def observedValue : Option RelValue → RelValue
  | some (RelValue.collection xs) => RelValue.collection xs
  | some v => v
  | none => RelValue.single none

/-- The guard and payload of the observer `dependentRelationshipDidChange`
(source lines 213-231): only when the relationship name is a key of the
snapshot hash is an event built; its `originalValue` is the stored
snapshot. -/
def mkObservedCtx (st : Store) (id : RecordId) (key : String) : Option Ctx :=
  match lookupA (st id).snapshots key with
  | none => none
  | some orig => some ⟨key, observedValue (getRelR (st id) key), orig⟩

/-- The observer itself: split the observed key down to the relationship
name (our callers pass the bare name), check the guard, and `send` the
event to the state machine.  Returns the store after the event together
with the event that was sent, if any. -/
def observerDidChange (st : Store) (id : RecordId) (key : String) :
    Except JSErr (Store × Option Ctx) :=
  match mkObservedCtx st id key with
  | none => Except.ok (st, none)
  | some c => do
      let st2 ← sendDependentRelationshipDidChange st id c
      Except.ok (st2, some c)

/-- The current-value component of a `changedRelationships` entry (source
line 204): the relationship itself for a `belongsTo`, `relationship.toArray()`
for a `hasMany`.  The `toArray` call raises when the value is not an array;
the null/absent cases are unreachable behind the truthiness guard. -/
def currentSnapE : RelKind → Option RelValue → Except JSErr SnapValue
  | RelKind.belongsTo, some (RelValue.single (some x)) => Except.ok (SnapValue.record x)
  | RelKind.belongsTo, some (RelValue.collection xs) => Except.ok (SnapValue.array xs)
  | RelKind.hasMany, some (RelValue.collection xs) => Except.ok (SnapValue.array xs)
  | _, _ => Except.error JSErr.toArrayUndefined

/-- The `eachDependentRelationship` loop of `changedRelationships` (source
lines 199-207): for every relationship marked dependent, when the current
value is truthy and `isRelationshipDirty` holds, record
`[Ember.copy(snapshot), current]`.  `Ember.copy` of a plain array is a
shallow copy, identical as a value, so it is the identity here; the copied
snapshot may be `undefined` when no snapshot was ever taken. -/
def changedGo (r : RecordState) :
    List (String × RelMeta) → Except JSErr (List (String × Option SnapValue × SnapValue))
  | [] => Except.ok []
  | q :: qs =>
    if q.2.dependent then
      if relTruthy (getRelR r q.1) then do
        let d ← isRelationshipDirty r q.1
        if d then do
          let cur ← currentSnapE q.2.kind (getRelR r q.1)
          let rest ← changedGo r qs
          Except.ok ((q.1, lookupA r.snapshots q.1, cur) :: rest)
        else changedGo r qs
      else changedGo r qs
    else changedGo r qs

/-- `record.changedRelationships()` (source lines 192-210). -/
def changedRelationships (st : Store) (id : RecordId) :
    Except JSErr (List (String × Option SnapValue × SnapValue)) :=
  changedGo (st id) (st id).relMeta

/-- The snapshot value written for one relationship by
`snapshotDependentRelations` (source line 243): the relationship itself for
a `belongsTo`, its `toArray()` for a `hasMany`.  The `toArray` call on a
single record would raise inside the `RSVP` fulfillment callback, turning it
into a dropped rejection, hence no write. -/
def snapWriteOf : RelKind → RelValue → Option SnapValue
  | RelKind.belongsTo, RelValue.single (some r) => some (SnapValue.record r)
  | RelKind.belongsTo, RelValue.collection xs => some (SnapValue.array xs)
  | RelKind.hasMany, RelValue.collection xs => some (SnapValue.array xs)
  | RelKind.hasMany, RelValue.single (some _) => none
  | _, RelValue.single none => none

/-- The snapshot writes that `snapshotDependentRelations` (source lines
234-250) schedules: one per dependent relationship whose current value is
truthy (`if (relationship = get(record, name))`) and whose resolution
succeeds.  A failing resolution rejects the `Ember.RSVP.all` promise; the
`then` has no rejection handler and the promise is not returned, so the
rejection is dropped: no write happens and no error reaches the caller. -/
def captureWrites (st : Store) (id : RecordId) : List (String × SnapValue) :=
  ((st id).relMeta.filter fun q => q.2.dependent).filterMap fun q =>
    match getRelR (st id) q.1 with
    | none => none
    | some (RelValue.single none) => none
    | some v =>
        if q.1 ∈ (st id).failing then none
        else (snapWriteOf q.2.kind v).map fun sv => (q.1, sv)

/-- Apply a list of snapshot writes to the snapshot hash in order. -/
def applySnapList (ws : List (String × SnapValue)) (l : List (String × SnapValue)) :
    List (String × SnapValue) :=
  ws.foldl (fun acc p => setA acc p.1 p.2) l

/-- Apply the scheduled snapshot writes to the record. -/
def applyWrites (st : Store) (id : RecordId) (ws : List (String × SnapValue)) : Store :=
  upd st id { st id with snapshots := applySnapList ws (st id).snapshots }

/-- `record.snapshotDependentRelations()` (source lines 234-250), observed
after the `RSVP` callbacks have flushed.  The function itself returns
synchronously and never throws: a resolution failure only suppresses that
relationship's write (see `captureWrites`).  The trailing
`get(record, 'hasDirtyAttributes')` is a read with no effect on this
state. -/
def snapshotDependentRelations (st : Store) (id : RecordId) : Except JSErr Store :=
  Except.ok (applyWrites st id (captureWrites st id))

/-- The dependent relationship names with `kind === 'hasMany'` that the
decorated `adapterDidCommit` re-notifies (source lines 275-279). -/
def hasManyDepNames (st : Store) (id : RecordId) : List String :=
  ((st id).relMeta.filter fun q =>
    q.2.dependent && decide (q.2.kind = RelKind.hasMany)).map Prod.fst

/-- Run the observer for each name in turn, collecting the events that were
actually sent (the observer's snapshot-hash guard can drop a name). -/
def notifyLoop (st : Store) (id : RecordId) :
    List String → Except JSErr (Store × List Ctx)
  | [] => Except.ok (st, [])
  | n :: ns => do
    let p ← observerDidChange st id n
    let q ← notifyLoop p.1 id ns
    Except.ok (q.1, (p.2.map fun c => [c]).getD [] ++ q.2)

/-- The decoration the addon adds to `InternalModel#adapterDidCommit`
(source lines 268-280), applied to the store as it stands after the original
`adapterDidCommit` (payload application and the transition out of
`inFlight`, both outside the addon).  `snapshotDependentRelations` is called
first, but its writes happen inside `RSVP` fulfillment callbacks, which run
only after the current call stack: the synchronous
`record.dependentRelationshipDidChange(this, name)` notifications for every
`hasMany` dependent relationship are therefore processed against the OLD
snapshot hash, and the new snapshots are applied afterwards. -/
def adapterDidCommit (st : Store) (id : RecordId) :
    Except JSErr (Store × List Ctx) := do
  let p ← notifyLoop st id (hasManyDepNames st id)
  Except.ok (applyWrites p.1 id (captureWrites st id), p.2)

/-- `Ember.makeArray` over a snapshot value: a record becomes a one-element
array, an array stays itself. -/
def makeArray : SnapValue → List RecordId
  | SnapValue.record y => [y]
  | SnapValue.array xs => xs

/-- The value assigned by `set(record, name, originalRelationship)` for a
`belongsTo` restore.  (A `belongsTo` snapshot is always a record; the array
case stores the array object itself and is unreachable for well-formed
metadata.) -/
def snapToValueB : SnapValue → RelValue
  | SnapValue.record y => RelValue.single (some y)
  | SnapValue.array xs => RelValue.collection xs

/-- Overwrite the current value of one relationship. -/
def setRelValue (st : Store) (id : RecordId) (name : String) (v : RelValue) : Store :=
  upd st id { st id with values := setA (st id).values name v }

/-- Restore one dependent relationship to its snapshot (source lines
295-299).  For a `belongsTo`, `Ember.set` goes through the computed
property, which skips change notification when the new value equals the
cached current value; a real change fires the addon's observer
synchronously.  For a `hasMany`, `setObjects` replaces the `ManyArray`
contents and always fires the array observers, hence the observer runs once
with the restored contents. -/
def restoreRel (st : Store) (id : RecordId) (name : String) (meta : RelMeta)
    (sv : SnapValue) : Except JSErr Store :=
  match meta.kind with
  | RelKind.belongsTo =>
      if getRelR (st id) name = some (snapToValueB sv) then Except.ok st
      else do
        let p ← observerDidChange (setRelValue st id name (snapToValueB sv)) id name
        Except.ok p.1
  | RelKind.hasMany => do
      let p ← observerDidChange
        (setRelValue st id name (RelValue.collection (makeArray sv))) id name
      Except.ok p.1

/-- Rolling back one dirty member of a restored relationship snapshot
(`.invoke('rollbackAttributes')`, source line 302).  A child rollback that
changes the child's `hasDirtyAttributes` flag re-fires the owning record's
observer for the relationship; we model one firing per child, after the
child's rollback settles.  Observers installed by unrelated records holding
the same child are not modelled. -/
def rollbackChildStep (rollback : Store → RecordId → Except JSErr Store)
    (id : RecordId) (name : String) (t : Store) (c : RecordId) :
    Except JSErr Store := do
  let t1 ← rollback t c
  let p ← observerDidChange t1 id name
  Except.ok p.1

/-- One iteration of the `eachDependentRelationship` loop of the rollback
decoration: when the relationship has a snapshot, restore it and then roll
back the snapshot's dirty members (`rollback` is the recursive
`rollbackAttributes` call). -/
def rollbackRelStep (rollback : Store → RecordId → Except JSErr Store)
    (id : RecordId) (s : Store) (q : String × RelMeta) : Except JSErr Store :=
  match lookupA (s id).snapshots q.1 with
  | none => Except.ok s
  | some sv => do
    let s1 ← restoreRel s id q.1 q.2 sv
    ((makeArray sv).filter fun r => stateIsDirty (s1 r).mstate).foldlM
      (rollbackChildStep rollback id q.1) s1

/-- The decorated `rollbackAttributes` (Ember Data's own method followed by
`rollbackDependentRelationships`, source lines 286-305).

The original method clears the pending own attributes and sends
`rolledBack`.  The decoration then walks every dependent relationship that
has a snapshot: it restores the current value to the snapshot (firing the
relationship observer, see `restoreRel`) and then invokes
`rollbackAttributes` on each record of the snapshot whose
`hasDirtyAttributes` flag is set (`makeArray(original).filterBy(...)` is
evaluated before the recursive calls, see `rollbackRelStep`).

The fuel argument bounds the recursion depth of the cascade (a cyclic graph
of dirty records can make the JS recursion diverge); it is an artifact of
the embedding, consumed only by nested rollbacks. -/
def rollbackAttributes : Nat → Store → RecordId → Except JSErr Store
  | 0, _, _ => Except.error JSErr.outOfFuel
  | Nat.succ f, st, id => do
    let st2 ← sendRolledBack (upd st id { st id with attrsDirty := false }) id
    ((st2 id).relMeta.filter fun q => q.2.dependent).foldlM
      (rollbackRelStep (fun t c => rollbackAttributes f t c) id) st2

/-!  Specification-side definitions, written from the spec's wording, to be
compared with the source-derived functions above. -/

/-- Claim-side comparison of a current relationship value against a stored
snapshot: identity of the single reference for a single-reference
relationship, identity sequence for a collection; a missing value or a
shape mismatch counts as differing. -/
def relDiffers : Option RelValue → Option SnapValue → Bool
  | some (RelValue.single (some x)), some (SnapValue.record y) => decide (x ≠ y)
  | some (RelValue.collection xs), some (SnapValue.array ys) => decide (xs ≠ ys)
  | _, _ => true

/-- Claim-side "an entity currently held through the relationship is itself
dirty": the dirty flag of the single reference, or of any element of the
collection. -/
def heldEntityDirty (st : Store) : Option RelValue → Bool
  | some (RelValue.single (some r)) => stateIsDirty (st r).mstate
  | some (RelValue.collection xs) => xs.any fun r => stateIsDirty (st r).mstate
  | _ => false

/-- Claim-side dirtiness of one snapshotted dependent relationship. -/
def claimKeyDirty (st : Store) (id : RecordId) (k : String) : Bool :=
  relDiffers (getRelR (st id) k) (lookupA (st id).snapshots k) ||
    heldEntityDirty st (getRelR (st id) k)

/-- The claim's definition of a dirty entity: own-field dirtiness, or some
snapshotted dependent relationship whose current value differs from its
snapshot, or some currently-held related entity that is itself dirty. -/
def claimDirty (st : Store) (id : RecordId) : Bool :=
  (st id).attrsDirty || ((st id).snapshots.map Prod.fst).any (claimKeyDirty st id)

/-- Every snapshotted dependent relationship of the record is
collection-valued: the snapshot is an array and the current value a
collection. -/
def CollectionOnly (r : RecordState) : Bool :=
  (r.snapshots.map Prod.fst).all fun k =>
    match lookupA r.values k, lookupA r.snapshots k with
    | some (RelValue.collection _), some (SnapValue.array _) => true
    | _, _ => false

/-- A current value matching a snapshot, identity-wise. -/
def snapMatchesValueB : Option RelValue → SnapValue → Bool
  | some (RelValue.single (some x)), SnapValue.record y => decide (x = y)
  | some (RelValue.collection xs), SnapValue.array ys => decide (xs = ys)
  | _, _ => false

/-- A record is clean: no pending own attributes, state `loaded.saved`,
every snapshotted dependent relationship currently holds exactly its
snapshot, and the snapshot of a dependent `hasMany` is an array (the shape
`snapshotDependentRelations` always writes). -/
def isCleanRecord (r : RecordState) : Bool :=
  (! r.attrsDirty) &&
  (decide (r.mstate = MachineState.savedState)) &&
  (r.snapshots.all fun p => snapMatchesValueB (lookupA r.values p.1) p.2) &&
  (r.relMeta.all fun q =>
    (! q.2.dependent) || (! decide (q.2.kind = RelKind.hasMany)) ||
    (match lookupA r.snapshots q.1 with
     | some (SnapValue.record _) => false
     | _ => true))

/-- Every record of the store is clean. -/
def CleanStore (st : Store) : Prop :=
  ∀ i, isCleanRecord (st i) = true

/-- The synthetic notifications the commit decoration emits, computed over
the pre-commit snapshot hash: one observer event per dependent `hasMany`
relationship that has a snapshot entry. -/
def syntheticEvents (st : Store) (id : RecordId) : List Ctx :=
  (hasManyDepNames st id).filterMap (mkObservedCtx st id)

/-- Two stores agreeing on everything except the state-machine states. -/
def DataEq (st st2 : Store) : Prop :=
  ∀ j, (st2 j).attrsDirty = (st j).attrsDirty ∧ (st2 j).relMeta = (st j).relMeta ∧
    (st2 j).values = (st j).values ∧ (st2 j).snapshots = (st j).snapshots ∧
    (st2 j).failing = (st j).failing

/-!  Concrete stores used to evaluate the model (counterexamples, failing
inputs and witnesses).  Record 0 is the entity under test; every other id
denotes an untouched clean record. -/

/-- A record with no attributes, relationships or snapshots, `loaded.saved`. -/
def blankRecord : RecordState :=
  ⟨false, [], [], [], [], MachineState.savedState⟩

/-- A clean record whose dependent `belongsTo` "brewery" is snapshotted and
currently holds exactly its snapshot, record 1. -/
def storeC1 : Store := fun i =>
  if i = 0 then
    ⟨false, [("brewery", ⟨RelKind.belongsTo, true⟩)],
      [("brewery", RelValue.single (some 1))], [],
      [("brewery", SnapValue.record 1)], MachineState.savedState⟩
  else blankRecord

/-- Record 0 holds a dependent `hasMany` "children" matching its snapshot;
record 1 has pending attribute changes (dirty state). -/
def storeC1w : Store := fun i =>
  if i = 0 then
    ⟨false, [("children", ⟨RelKind.hasMany, true⟩)],
      [("children", RelValue.collection [1])], [],
      [("children", SnapValue.array [1])], MachineState.savedState⟩
  else if i = 1 then
    ⟨true, [], [], [], [], MachineState.updatedUncommitted⟩
  else blankRecord

/-- A locally modified record (`loaded.updated.uncommitted`, pending
attributes) with a snapshotted dependent `belongsTo`. -/
def storeC2 : Store := fun i =>
  if i = 0 then
    ⟨true, [("brewery", ⟨RelKind.belongsTo, true⟩)],
      [("brewery", RelValue.single (some 1))], [],
      [("brewery", SnapValue.record 1)], MachineState.updatedUncommitted⟩
  else blankRecord

/-- A clean record whose dependent `hasMany` currently holds the snapshot's
members in reverse order (no member added or removed). -/
def storeC3 : Store := fun i =>
  if i = 0 then
    ⟨false, [("children", ⟨RelKind.hasMany, true⟩)],
      [("children", RelValue.collection [2, 1])], [],
      [("children", SnapValue.array [1, 2])], MachineState.savedState⟩
  else blankRecord

/-- A record whose dependent `belongsTo` "brewery" now resolves to record 2
but whose resolution fails; the stored snapshot still holds record 1. -/
def storeC4 : Store := fun i =>
  if i = 0 then
    ⟨false, [("brewery", ⟨RelKind.belongsTo, true⟩)],
      [("brewery", RelValue.single (some 2))], ["brewery"],
      [("brewery", SnapValue.record 1)], MachineState.savedState⟩
  else blankRecord

/-- An in-flight record whose dependent `hasMany` diverges from its
snapshot. -/
def storeC5 : Store := fun i =>
  if i = 0 then
    ⟨false, [("children", ⟨RelKind.hasMany, true⟩)],
      [("children", RelValue.collection [1])], [],
      [("children", SnapValue.array [2])], MachineState.updatedInFlight⟩
  else blankRecord

/-- A just-committed record whose dependent `belongsTo` was cleared to
`null` while an old snapshot (record 1) is still stored. -/
def storeC6 : Store := fun i =>
  if i = 0 then
    ⟨false, [("brewery", ⟨RelKind.belongsTo, true⟩)],
      [("brewery", RelValue.single none)], [],
      [("brewery", SnapValue.record 1)], MachineState.savedState⟩
  else blankRecord

/-- A just-committed record with a snapshotted dependent `hasMany`. -/
def storeC6w : Store := fun i =>
  if i = 0 then
    ⟨false, [("beers", ⟨RelKind.hasMany, true⟩)],
      [("beers", RelValue.collection [1])], [],
      [("beers", SnapValue.array [1])], MachineState.savedState⟩
  else blankRecord

/-- A clean record whose snapshotted dependent `belongsTo` holds exactly its
snapshot (same shape as `storeC1`). -/
def storeC7 : Store := fun i =>
  if i = 0 then
    ⟨false, [("brewery", ⟨RelKind.belongsTo, true⟩)],
      [("brewery", RelValue.single (some 1))], [],
      [("brewery", SnapValue.record 1)], MachineState.savedState⟩
  else blankRecord

/-- A fully clean one-relationship graph: record 0 holds its dependent
`hasMany` snapshot exactly, record 1 is clean. -/
def storeC8 : Store := fun i =>
  if i = 0 then
    ⟨false, [("children", ⟨RelKind.hasMany, true⟩)],
      [("children", RelValue.collection [1])], [],
      [("children", SnapValue.array [1])], MachineState.savedState⟩
  else blankRecord

/-- A record with a dependent `hasMany` that was never snapshotted. -/
def storeC9 : Store := fun i =>
  if i = 0 then
    ⟨false, [("children", ⟨RelKind.hasMany, true⟩)],
      [("children", RelValue.collection [1, 2])], [], [],
      MachineState.savedState⟩
  else blankRecord

/-- A record whose dependent `belongsTo` "brewery" was cleared to `null`
(snapshot still holds record 1) and whose dependent `hasMany` "beers"
diverges from its snapshot. -/
def storeC10 : Store := fun i =>
  if i = 0 then
    ⟨false,
      [("brewery", ⟨RelKind.belongsTo, true⟩), ("beers", ⟨RelKind.hasMany, true⟩)],
      [("brewery", RelValue.single none), ("beers", RelValue.collection [2])], [],
      [("brewery", SnapValue.record 1), ("beers", SnapValue.array [3])],
      MachineState.savedState⟩
  else blankRecord

/-!  Helper lemmas. -/

theorem upd_self (st : Store) (i : RecordId) (r : RecordState) : upd st i r i = r := by
  simp [upd]

theorem upd_same (st : Store) (i : RecordId) : upd st i (st i) = st := by
  funext j
  by_cases hj : j = i <;> simp [upd, hj]

theorem lookupA_mem {α : Type} (l : List (String × α)) (k : String) (v : α)
    (h : lookupA l k = some v) : (k, v) ∈ l := by
  induction l with
  | nil => simp [lookupA] at h
  | cons p ps ih =>
    by_cases hp : p.1 = k
    · simp [lookupA, hp] at h
      subst hp h
      exact List.mem_cons_self _ _
    · simp [lookupA, hp] at h
      exact List.mem_cons_of_mem _ (ih h)

theorem setA_self {α : Type} (l : List (String × α)) (k : String) (v : α)
    (h : lookupA l k = some v) : setA l k v = l := by
  induction l with
  | nil => simp [lookupA] at h
  | cons p ps ih =>
    by_cases hp : p.1 = k
    · simp [lookupA, hp] at h
      subst h
      subst hp
      simp [setA]
    · simp [lookupA, hp] at h
      simp [setA, hp, ih h]

theorem lookupA_setA_ne {α : Type} (l : List (String × α)) (k k2 : String) (v : α)
    (h : k ≠ k2) : lookupA (setA l k v) k2 = lookupA l k2 := by
  induction l with
  | nil => simp [setA, lookupA, h]
  | cons p ps ih =>
    by_cases hp : p.1 = k
    · simp [setA, hp, lookupA, h]
    · simp [setA, hp, lookupA, ih]

theorem applySnapList_lookup_ne (ws : List (String × SnapValue))
    (l : List (String × SnapValue)) (k : String) (h : ∀ p ∈ ws, p.1 ≠ k) :
    lookupA (applySnapList ws l) k = lookupA l k := by
  induction ws generalizing l with
  | nil => simp [applySnapList]
  | cons w ws ih =>
    have h1 : w.1 ≠ k := h w (List.mem_cons_self _ _)
    have h2 : ∀ p ∈ ws, p.1 ≠ k := fun p hp => h p (List.mem_cons_of_mem _ hp)
    simp only [applySnapList, List.foldl_cons]
    rw [show (List.foldl (fun acc p => setA acc p.1 p.2) (setA l w.1 w.2) ws) =
      applySnapList ws (setA l w.1 w.2) from rfl, ih _ h2, lookupA_setA_ne _ _ _ _ h1]

theorem dataEq_refl (st : Store) : DataEq st st :=
  fun _ => ⟨rfl, rfl, rfl, rfl, rfl⟩

theorem dataEq_trans {s1 s2 s3 : Store} (h1 : DataEq s1 s2) (h2 : DataEq s2 s3) :
    DataEq s1 s3 := by
  intro j
  obtain ⟨a1, b1, c1, d1, e1⟩ := h1 j
  obtain ⟨a2, b2, c2, d2, e2⟩ := h2 j
  exact ⟨a2.trans a1, b2.trans b1, c2.trans c1, d2.trans d1, e2.trans e1⟩

theorem dataEq_setMstate (st : Store) (id : RecordId) (s : MachineState) :
    DataEq st (setMstate st id s) := by
  intro j
  by_cases hj : j = id
  · subst hj
    simp [setMstate, upd]
  · simp [setMstate, upd, hj]

theorem dataEq_sendBecomeDirty (st : Store) (id : RecordId) :
    DataEq st (sendBecomeDirty st id) := by
  unfold sendBecomeDirty
  cases h : (st id).mstate <;>
    first
    | exact dataEq_setMstate st id _
    | exact dataEq_refl st

theorem enterSaved_dataEq (st s : Store) (id : RecordId)
    (h : enterSaved st id = Except.ok s) : DataEq st s := by
  unfold enterSaved at h
  cases hd : isRecordDirty (setMstate st id MachineState.savedState) id with
  | error e =>
    rw [hd] at h
    exact absurd h (by simp [Bind.bind, Except.bind])
  | ok d =>
    rw [hd] at h
    have h2 : Except.ok (if d then
        sendBecomeDirty (setMstate st id MachineState.savedState) id
      else setMstate st id MachineState.savedState) = Except.ok s := h
    have h3 := Except.ok.inj h2
    cases d
    · rw [← h3]
      exact dataEq_setMstate st id _
    · rw [← h3]
      exact dataEq_trans (dataEq_setMstate st id _) (dataEq_sendBecomeDirty _ id)

theorem sendRolledBack_dataEq (st s : Store) (id : RecordId)
    (h : sendRolledBack st id = Except.ok s) : DataEq st s := by
  unfold sendRolledBack at h
  cases hm : (st id).mstate <;> rw [hm] at h <;>
    first
    | exact enterSaved_dataEq st s id h
    | (rw [← Except.ok.inj h]; exact dataEq_setMstate st id _)
    | (rw [← Except.ok.inj h]; exact dataEq_refl st)

theorem sendPropertyWasReset_dataEq (st s : Store) (id : RecordId)
    (h : sendPropertyWasReset st id = Except.ok s) : DataEq st s := by
  unfold sendPropertyWasReset at h
  cases hm : (st id).mstate <;> rw [hm] at h
  case savedState => rw [← Except.ok.inj h]; exact dataEq_refl st
  case createdUncommitted =>
    cases hd : isRecordDirty st id with
    | error e =>
      rw [hd] at h
      exact absurd h (by simp [Bind.bind, Except.bind])
    | ok d =>
      rw [hd] at h
      cases d
      · exact sendRolledBack_dataEq st s id h
      · rw [← Except.ok.inj h]; exact dataEq_refl st
  case updatedUncommitted =>
    cases hd : isRecordDirty st id with
    | error e =>
      rw [hd] at h
      exact absurd h (by simp [Bind.bind, Except.bind])
    | ok d =>
      rw [hd] at h
      cases d
      · exact sendRolledBack_dataEq st s id h
      · rw [← Except.ok.inj h]; exact dataEq_refl st
  all_goals rw [← Except.ok.inj h]; exact dataEq_refl st

theorem dependentRelationshipDidChange_dataEq (st s : Store) (id : RecordId) (c : Ctx)
    (h : dependentRelationshipDidChange st id c = Except.ok s) : DataEq st s := by
  unfold dependentRelationshipDidChange at h
  by_cases hc : (match c.value, c.original with
    | RelValue.collection xs, SnapValue.array ys => decide (sortIds xs ≠ sortIds ys)
    | v, o => ! emberEq v o) = true
  · rw [if_pos hc] at h
    rw [← Except.ok.inj h]
    exact dataEq_sendBecomeDirty st id
  · rw [if_neg hc] at h
    cases hd : isRelatedRecordDirty st c.value with
    | error e =>
      rw [hd] at h
      exact absurd h (by simp [Bind.bind, Except.bind])
    | ok d =>
      rw [hd] at h
      cases d
      · exact sendPropertyWasReset_dataEq st s id h
      · rw [← Except.ok.inj h]
        exact dataEq_sendBecomeDirty st id

theorem sendDependentRelationshipDidChange_dataEq (st s : Store) (id : RecordId)
    (c : Ctx) (h : sendDependentRelationshipDidChange st id c = Except.ok s) :
    DataEq st s := by
  unfold sendDependentRelationshipDidChange at h
  by_cases hf : isFrozen (st id).mstate = true
  · rw [if_pos hf] at h
    rw [← Except.ok.inj h]
    exact dataEq_refl st
  · rw [if_neg hf] at h
    exact dependentRelationshipDidChange_dataEq st s id c h

theorem observerDidChange_spec (st s : Store) (id : RecordId) (key : String)
    (c : Option Ctx) (h : observerDidChange st id key = Except.ok (s, c)) :
    DataEq st s ∧ c = mkObservedCtx st id key := by
  unfold observerDidChange at h
  cases hm : mkObservedCtx st id key with
  | none =>
    rw [hm] at h
    have h2 : (st, (none : Option Ctx)) = (s, c) := Except.ok.inj h
    rw [Prod.mk.injEq] at h2
    rw [← h2.1, ← h2.2]
    exact ⟨dataEq_refl st, rfl⟩
  | some c0 =>
    rw [hm] at h
    have h3 : (sendDependentRelationshipDidChange st id c0 >>= fun st2 =>
        Except.ok (st2, some c0)) = Except.ok (s, c) := h
    cases hs : sendDependentRelationshipDidChange st id c0 with
    | error e =>
      rw [hs] at h3
      exact absurd h3 (by simp [Bind.bind, Except.bind])
    | ok s0 =>
      rw [hs] at h3
      have h4 : ((s0, some c0) : Store × Option Ctx) = (s, c) := Except.ok.inj h3
      rw [Prod.mk.injEq] at h4
      rw [← h4.1, ← h4.2]
      exact ⟨sendDependentRelationshipDidChange_dataEq st s0 id c0 hs, rfl⟩

theorem dataEq_lookup_snapshots {st s : Store} (h : DataEq st s) (j : RecordId) :
    (s j).snapshots = (st j).snapshots := (h j).2.2.2.1

theorem dataEq_lookup_values {st s : Store} (h : DataEq st s) (j : RecordId) :
    (s j).values = (st j).values := (h j).2.2.1

theorem dataEq_relMeta {st s : Store} (h : DataEq st s) (j : RecordId) :
    (s j).relMeta = (st j).relMeta := (h j).2.1

theorem mkObservedCtx_congr {st s : Store} (h : DataEq st s) (id : RecordId)
    (key : String) : mkObservedCtx s id key = mkObservedCtx st id key := by
  unfold mkObservedCtx
  rw [dataEq_lookup_snapshots h id]
  unfold getRelR
  rw [dataEq_lookup_values h id]

theorem notifyLoop_spec (ns : List String) (st s : Store) (id : RecordId)
    (evs : List Ctx) (h : notifyLoop st id ns = Except.ok (s, evs)) :
    DataEq st s ∧ evs = ns.filterMap (mkObservedCtx st id) := by
  induction ns generalizing st evs with
  | nil =>
    unfold notifyLoop at h
    have h2 : (st, ([] : List Ctx)) = (s, evs) := Except.ok.inj h
    rw [Prod.mk.injEq] at h2
    rw [← h2.1, ← h2.2]
    exact ⟨dataEq_refl st, rfl⟩
  | cons n ns ih =>
    unfold notifyLoop at h
    cases ho : observerDidChange st id n with
    | error e =>
      rw [ho] at h
      exact absurd h (by simp [Bind.bind, Except.bind])
    | ok p =>
      rw [ho] at h
      have h3 : (notifyLoop p.1 id ns >>= fun q =>
          Except.ok (q.1, (Option.map (fun c => [c]) p.2).getD [] ++ q.2)) =
          Except.ok (s, evs) := h
      cases hl : notifyLoop p.1 id ns with
      | error e =>
        rw [hl] at h3
        exact absurd h3 (by simp [Bind.bind, Except.bind])
      | ok q =>
        rw [hl] at h3
        have h4 : ((q.1, (Option.map (fun c => [c]) p.2).getD [] ++ q.2) :
            Store × List Ctx) = (s, evs) := Except.ok.inj h3
        rw [Prod.mk.injEq] at h4
        have hobs := observerDidChange_spec st p.1 id n p.2 (by rw [ho])
        have hrec := ih p.1 q.2 (by rw [hl, ← h4.1])
        obtain ⟨hobs1, hobs2⟩ := hobs
        obtain ⟨hrec1, hrec2⟩ := hrec
        constructor
        · exact dataEq_trans hobs1 hrec1
        · have hfun : mkObservedCtx p.1 id = mkObservedCtx st id :=
            funext fun m => mkObservedCtx_congr hobs1 id m
          rw [← h4.2, List.filterMap_cons, ← hobs2, hrec2, hfun]
          cases p.2 <;> simp

theorem isRelationshipDirty_collection (r : RecordState) (k : String)
    (xs ys : List RecordId) (hv : getRelR r k = some (RelValue.collection xs))
    (hs : lookupA r.snapshots k = some (SnapValue.array ys)) :
    isRelationshipDirty r k = Except.ok (decide (xs ≠ ys)) := by
  unfold isRelationshipDirty
  rw [hv]
  show (toArrayJS (some (RelValue.collection xs)) >>= fun arr =>
    match lookupA r.snapshots k with
    | some (SnapValue.array ys) => Except.ok (decide (arr ≠ ys))
    | some (SnapValue.record _) => Except.ok true
    | none => Except.ok true) = Except.ok (decide (xs ≠ ys))
  rw [hs]
  rfl

theorem anyKeysDirty_spec (st : Store) (id : RecordId) (ks : List String)
    (h : ∀ k ∈ ks, ∃ xs ys, getRelR (st id) k = some (RelValue.collection xs) ∧
      lookupA (st id).snapshots k = some (SnapValue.array ys)) :
    anyKeysDirty st id ks = Except.ok (ks.any (claimKeyDirty st id)) := by
  induction ks with
  | nil => rfl
  | cons k ks ih =>
    obtain ⟨xs, ys, hv, hs⟩ := h k (List.mem_cons_self _ _)
    have hrest := ih fun m hm => h m (List.mem_cons_of_mem _ hm)
    have h1 := isRelationshipDirty_collection (st id) k xs ys hv hs
    by_cases hxy : xs = ys
    · subst hxy
      by_cases hAny : (xs.any fun r => stateIsDirty (st r).mstate) = true
      · simp [anyKeysDirty, h1, hv, isRelatedRecordDirty, hAny, Bind.bind,
          Except.bind, claimKeyDirty, relDiffers, heldEntityDirty, hs]
      · rw [Bool.not_eq_true] at hAny
        simp [anyKeysDirty, h1, hv, isRelatedRecordDirty, hAny, Bind.bind,
          Except.bind, claimKeyDirty, relDiffers, heldEntityDirty, hs, hrest]
    · simp [anyKeysDirty, h1, hxy, hv, claimKeyDirty, relDiffers, hs,
        Bind.bind, Except.bind]

/-- C1 (amended): for every entity all of whose snapshotted dependent
relationships are collection-valued, `isRecordDirty` returns `true` if and
only if the entity has own-field dirtiness, or some snapshotted dependent
relationship's current member sequence differs from its snapshot, or some
currently-held member's dirty flag is set; otherwise it returns `false`
(the two sides are equal as booleans, `claimDirty` being the claim's
disjunction). -/
theorem isRecordDirty_collectionOnly (st : Store) (id : RecordId)
    (h : CollectionOnly (st id) = true) :
    isRecordDirty st id = Except.ok (claimDirty st id) := by
  unfold isRecordDirty claimDirty
  by_cases ha : (st id).attrsDirty = true
  · simp [ha]
  · rw [Bool.not_eq_true] at ha
    rw [ha]
    rw [if_neg (by decide : ¬ (false = true))]
    simp only [Bool.false_or]
    apply anyKeysDirty_spec
    intro k hk
    unfold CollectionOnly at h
    rw [List.all_eq_true] at h
    have h2 := h k hk
    unfold getRelR
    cases hv : lookupA (st id).values k with
    | none => rw [hv] at h2; simp at h2
    | some v =>
      cases v with
      | single o => rw [hv] at h2; simp at h2
      | collection xs =>
        cases hsv : lookupA (st id).snapshots k with
        | none => rw [hv, hsv] at h2; simp at h2
        | some sv =>
          cases sv with
          | record y => rw [hv, hsv] at h2; simp at h2
          | array ys => exact ⟨xs, ys, rfl, rfl⟩

theorem isCleanRecord_attrs (r : RecordState) (h : isCleanRecord r = true) :
    r.attrsDirty = false := by
  unfold isCleanRecord at h
  simp only [Bool.and_eq_true, Bool.not_eq_true'] at h
  exact h.1.1.1

theorem isCleanRecord_mstate (r : RecordState) (h : isCleanRecord r = true) :
    r.mstate = MachineState.savedState := by
  unfold isCleanRecord at h
  simp only [Bool.and_eq_true, decide_eq_true_eq] at h
  exact h.1.1.2

theorem isCleanRecord_snapshots (r : RecordState) (h : isCleanRecord r = true) :
    ∀ p ∈ r.snapshots, snapMatchesValueB (lookupA r.values p.1) p.2 = true := by
  unfold isCleanRecord at h
  simp only [Bool.and_eq_true, List.all_eq_true] at h
  exact h.1.2

theorem isCleanRecord_hasManySnap (r : RecordState) (h : isCleanRecord r = true) :
    ∀ q ∈ r.relMeta, q.2.dependent = true → q.2.kind = RelKind.hasMany →
      ∀ y, lookupA r.snapshots q.1 ≠ some (SnapValue.record y) := by
  unfold isCleanRecord at h
  simp only [Bool.and_eq_true, List.all_eq_true] at h
  intro q hq hdep hk y hcontra
  have h2 := h.2 q hq
  rw [hdep, hk, hcontra] at h2
  simp at h2

theorem cleanStore_flags (st : Store) (h : CleanStore st) (ys : List RecordId) :
    (ys.any fun r => stateIsDirty (st r).mstate) = false := by
  rw [List.any_eq_false]
  intro r _
  rw [isCleanRecord_mstate _ (h r)]
  simp [stateIsDirty]

theorem sendPropertyWasReset_saved (st : Store) (id : RecordId)
    (h : (st id).mstate = MachineState.savedState) :
    sendPropertyWasReset st id = Except.ok st := by
  unfold sendPropertyWasReset
  rw [h]

theorem drdc_equal_collection (st : Store) (id : RecordId) (name : String)
    (ys : List RecordId)
    (hflags : (ys.any fun r => stateIsDirty (st r).mstate) = false)
    (hms : (st id).mstate = MachineState.savedState) :
    dependentRelationshipDidChange st id
      ⟨name, RelValue.collection ys, SnapValue.array ys⟩ = Except.ok st := by
  unfold dependentRelationshipDidChange
  show (if decide (sortIds ys ≠ sortIds ys) = true then
      Except.ok (sendBecomeDirty st id)
    else do
      let d ← isRelatedRecordDirty st (RelValue.collection ys)
      if d = true then Except.ok (sendBecomeDirty st id)
      else sendPropertyWasReset st id) = Except.ok st
  rw [if_neg (by simp)]
  show (isRelatedRecordDirty st (RelValue.collection ys) >>= fun d =>
    if d = true then Except.ok (sendBecomeDirty st id)
    else sendPropertyWasReset st id) = Except.ok st
  show (Except.ok (ys.any fun r => stateIsDirty (st r).mstate) >>= fun d =>
    if d = true then Except.ok (sendBecomeDirty st id)
    else sendPropertyWasReset st id) = Except.ok st
  rw [hflags]
  show (if false = true then Except.ok (sendBecomeDirty st id)
    else sendPropertyWasReset st id) = Except.ok st
  rw [if_neg (by decide : ¬ (false = true))]
  exact sendPropertyWasReset_saved st id hms

theorem observer_clean_collection (st : Store) (id : RecordId) (name : String)
    (ys : List RecordId) (h : CleanStore st)
    (hsnap : lookupA (st id).snapshots name = some (SnapValue.array ys))
    (hval : getRelR (st id) name = some (RelValue.collection ys)) :
    observerDidChange st id name =
      Except.ok (st, some ⟨name, RelValue.collection ys, SnapValue.array ys⟩) := by
  have hctx : mkObservedCtx st id name =
      some ⟨name, RelValue.collection ys, SnapValue.array ys⟩ := by
    unfold mkObservedCtx
    rw [hsnap, hval]
    rfl
  have hsend : sendDependentRelationshipDidChange st id
      ⟨name, RelValue.collection ys, SnapValue.array ys⟩ = Except.ok st := by
    unfold sendDependentRelationshipDidChange
    rw [isCleanRecord_mstate _ (h id)]
    rw [if_neg (by simp [isFrozen])]
    exact drdc_equal_collection st id name ys (cleanStore_flags st h ys)
      (isCleanRecord_mstate _ (h id))
  unfold observerDidChange
  rw [hctx]
  show (sendDependentRelationshipDidChange st id
      ⟨name, RelValue.collection ys, SnapValue.array ys⟩ >>= fun st2 =>
        Except.ok (st2, some (⟨name, RelValue.collection ys, SnapValue.array ys⟩ : Ctx))) =
    Except.ok (st, some (⟨name, RelValue.collection ys, SnapValue.array ys⟩ : Ctx))
  rw [hsend]
  rfl

theorem setRelValue_self (st : Store) (id : RecordId) (name : String) (v : RelValue)
    (h : lookupA (st id).values name = some v) : setRelValue st id name v = st := by
  unfold setRelValue
  rw [setA_self _ _ _ h]
  exact upd_same st id

theorem restoreRel_clean (st : Store) (id : RecordId) (name : String) (m : RelMeta)
    (sv : SnapValue) (h : CleanStore st)
    (hmem : (name, m) ∈ (st id).relMeta) (hdep : m.dependent = true)
    (hsnap : lookupA (st id).snapshots name = some sv) :
    restoreRel st id name m sv = Except.ok st := by
  have hmv : snapMatchesValueB (lookupA (st id).values name) sv = true :=
    isCleanRecord_snapshots _ (h id) _ (lookupA_mem _ _ _ hsnap)
  cases hk : m.kind with
  | belongsTo =>
    have hval : getRelR (st id) name = some (snapToValueB sv) := by
      unfold getRelR
      cases sv with
      | record y =>
        cases hv : lookupA (st id).values name with
        | none => rw [hv] at hmv; simp [snapMatchesValueB] at hmv
        | some v =>
          cases v with
          | collection xs => rw [hv] at hmv; simp [snapMatchesValueB] at hmv
          | single o =>
            cases o with
            | none => rw [hv] at hmv; simp [snapMatchesValueB] at hmv
            | some x =>
              rw [hv] at hmv
              simp only [snapMatchesValueB, decide_eq_true_eq] at hmv
              rw [hmv]
              rfl
      | array ys =>
        cases hv : lookupA (st id).values name with
        | none => rw [hv] at hmv; simp [snapMatchesValueB] at hmv
        | some v =>
          cases v with
          | single o => rw [hv] at hmv; simp [snapMatchesValueB] at hmv
          | collection xs =>
            rw [hv] at hmv
            simp only [snapMatchesValueB, decide_eq_true_eq] at hmv
            rw [hmv]
            rfl
    unfold restoreRel
    rw [hk]
    show (if getRelR (st id) name = some (snapToValueB sv) then Except.ok st
      else do
        let p ← observerDidChange (setRelValue st id name (snapToValueB sv)) id name
        Except.ok p.1) = Except.ok st
    rw [if_pos hval]
  | hasMany =>
    obtain ⟨ys, rfl⟩ : ∃ ys, sv = SnapValue.array ys := by
      cases sv with
      | record y =>
        exact absurd hsnap (isCleanRecord_hasManySnap _ (h id) (name, m) hmem hdep hk y)
      | array ys => exact ⟨ys, rfl⟩
    have hval : lookupA (st id).values name = some (RelValue.collection ys) := by
      cases hv : lookupA (st id).values name with
      | none => rw [hv] at hmv; simp [snapMatchesValueB] at hmv
      | some v =>
        cases v with
        | single o => rw [hv] at hmv; simp [snapMatchesValueB] at hmv
        | collection xs =>
          rw [hv] at hmv
          simp only [snapMatchesValueB, decide_eq_true_eq] at hmv
          rw [hmv]
    unfold restoreRel
    rw [hk]
    show (observerDidChange
        (setRelValue st id name (RelValue.collection (makeArray (SnapValue.array ys))))
        id name >>= fun p => Except.ok p.1) = Except.ok st
    rw [show RelValue.collection (makeArray (SnapValue.array ys)) =
      RelValue.collection ys from rfl]
    rw [setRelValue_self st id name _ hval]
    rw [observer_clean_collection st id name ys h hsnap hval]
    rfl

theorem rollbackRelStep_clean (rb : Store → RecordId → Except JSErr Store)
    (st : Store) (id : RecordId) (h : CleanStore st) (q : String × RelMeta)
    (hmem : q ∈ (st id).relMeta) (hdep : q.2.dependent = true) :
    rollbackRelStep rb id st q = Except.ok st := by
  unfold rollbackRelStep
  cases hsnap : lookupA (st id).snapshots q.1 with
  | none => rfl
  | some sv =>
    show (restoreRel st id q.1 q.2 sv >>= fun s1 =>
      ((makeArray sv).filter fun r => stateIsDirty (s1 r).mstate).foldlM
        (rollbackChildStep rb id q.1) s1) = Except.ok st
    rw [restoreRel_clean st id q.1 q.2 sv h hmem hdep hsnap]
    show ((makeArray sv).filter fun r => stateIsDirty (st r).mstate).foldlM
      (rollbackChildStep rb id q.1) st = Except.ok st
    have hfilter : ((makeArray sv).filter fun r => stateIsDirty (st r).mstate) = [] := by
      apply List.filter_eq_nil_iff.mpr
      intro a _
      rw [isCleanRecord_mstate _ (h a)]
      simp [stateIsDirty]
    rw [hfilter]
    rfl

theorem rollbackFold_clean (rb : Store → RecordId → Except JSErr Store)
    (st : Store) (id : RecordId) (h : CleanStore st)
    (l : List (String × RelMeta))
    (hl : ∀ q ∈ l, q ∈ (st id).relMeta ∧ q.2.dependent = true) :
    l.foldlM (rollbackRelStep rb id) st = Except.ok st := by
  induction l with
  | nil => rfl
  | cons q l ih =>
    obtain ⟨hmem, hdep⟩ := hl q (List.mem_cons_self _ _)
    rw [List.foldlM_cons, rollbackRelStep_clean rb st id h q hmem hdep]
    exact ih fun m hm => hl m (List.mem_cons_of_mem _ hm)

/-- C8: on an already-clean graph — as it is after a completed rollback —
calling `rollbackAttributes` is a no-op: it returns the store unchanged, so
no relationship value, no snapshot and no entity state is modified, and a
second rollback call is equivalent to having called rollback once. -/
theorem rollbackAttributes_clean_noop (st : Store) (id : RecordId) (f : Nat)
    (h : CleanStore st) : rollbackAttributes (f + 1) st id = Except.ok st := by
  have hattr : (st id).attrsDirty = false := isCleanRecord_attrs _ (h id)
  have hms : (st id).mstate = MachineState.savedState := isCleanRecord_mstate _ (h id)
  have h0 : ({ st id with attrsDirty := false } : RecordState) = st id := by
    rw [← hattr]
  have h2 : sendRolledBack st id = Except.ok st := by
    unfold sendRolledBack
    rw [hms]
  show (sendRolledBack (upd st id { st id with attrsDirty := false }) id >>= fun st2 =>
    ((st2 id).relMeta.filter fun q => q.2.dependent).foldlM
      (rollbackRelStep (fun t c => rollbackAttributes f t c) id) st2) = Except.ok st
  rw [h0, upd_same, h2]
  show ((st id).relMeta.filter fun q => q.2.dependent).foldlM
    (rollbackRelStep (fun t c => rollbackAttributes f t c) id) st = Except.ok st
  apply rollbackFold_clean _ st id h
  intro q hq
  rw [List.mem_filter] at hq
  exact ⟨hq.1, hq.2⟩

/-- C6 (amended): after a successful persistence commit, the decorated
`adapterDidCommit` re-emits a synthetic `dependentRelationshipDidChange`
for every collection-valued — and only collection-valued — dependent
relationship that has a snapshot entry (`syntheticEvents`), each event
carrying the PRE-commit snapshot as its `originalValue` (the notifications
run before the re-captured snapshots are applied); the new snapshot hash is
the old one overwritten by the capture's writes, which cover only the
dependent relationships whose current value is truthy and resolves
(`captureWrites`). -/
theorem adapterDidCommit_after (st st2 : Store) (id : RecordId) (evs : List Ctx)
    (h : adapterDidCommit st id = Except.ok (st2, evs)) :
    evs = syntheticEvents st id ∧
    (st2 id).snapshots = applySnapList (captureWrites st id) (st id).snapshots ∧
    ∀ c ∈ evs, lookupA (st id).snapshots c.name = some c.original := by
  unfold adapterDidCommit at h
  cases hN : notifyLoop st id (hasManyDepNames st id) with
  | error e =>
    rw [hN] at h
    exact absurd h (by simp [Bind.bind, Except.bind])
  | ok p =>
    rw [hN] at h
    have h2 : ((applyWrites p.1 id (captureWrites st id), p.2) : Store × List Ctx) =
        (st2, evs) := Except.ok.inj h
    rw [Prod.mk.injEq] at h2
    obtain ⟨hdq, hevs⟩ := notifyLoop_spec (hasManyDepNames st id) st p.1 id p.2
      (by rw [hN])
    refine ⟨?_, ?_, ?_⟩
    · rw [← h2.2, hevs]
      rfl
    · rw [← h2.1]
      show ((applyWrites p.1 id (captureWrites st id)) id).snapshots = _
      unfold applyWrites
      rw [upd_self]
      show applySnapList (captureWrites st id) ((p.1 id).snapshots) = _
      rw [dataEq_lookup_snapshots hdq id]
    · intro c hc
      rw [← h2.2, hevs] at hc
      rw [List.mem_filterMap] at hc
      obtain ⟨n, _, hn⟩ := hc
      unfold mkObservedCtx at hn
      cases hs : lookupA (st id).snapshots n with
      | none => rw [hs] at hn; simp at hn
      | some orig =>
        rw [hs] at hn
        have h5 := Option.some.inj hn
        rw [← h5]
        exact hs

theorem captureWrites_failing_not_mem (st : Store) (id : RecordId) (name : String)
    (h : name ∈ (st id).failing) : ∀ p ∈ captureWrites st id, p.1 ≠ name := by
  intro p hp
  unfold captureWrites at hp
  rw [List.mem_filterMap] at hp
  obtain ⟨q, hq, hpq⟩ := hp
  split at hpq
  · exact absurd hpq (by simp)
  · exact absurd hpq (by simp)
  · split at hpq
    · exact absurd hpq (by simp)
    · next hf =>
      rw [Option.map_eq_some'] at hpq
      obtain ⟨sv, _, hsv⟩ := hpq
      rw [← hsv]
      intro hcontra
      exact hf (by rw [hcontra]; exact h)

/-- C4 (amended): when resolution of a dependent relationship fails during
snapshot capture, the previous snapshot for that relationship is left
untouched and the entity's state is unchanged, but the failure is NOT
propagated: `snapshotDependentRelations` completes normally, silently
dropping the rejection (the `RSVP` chain has no rejection handler and is
not returned to the caller). -/
theorem snapshotCapture_silent (st : Store) (id : RecordId) (name : String)
    (h : name ∈ (st id).failing) :
    snapshotDependentRelations st id =
        Except.ok (applyWrites st id (captureWrites st id)) ∧
    lookupA (((applyWrites st id (captureWrites st id)) id).snapshots) name =
        lookupA ((st id).snapshots) name ∧
    ((applyWrites st id (captureWrites st id)) id).mstate = (st id).mstate := by
  refine ⟨rfl, ?_, ?_⟩
  · unfold applyWrites
    rw [upd_self]
    exact applySnapList_lookup_ne _ _ _ (captureWrites_failing_not_mem st id name h)
  · unfold applyWrites
    rw [upd_self]

theorem isRelationshipDirty_congr (r1 r2 : RecordState) (hv : r1.values = r2.values)
    (hs : r1.snapshots = r2.snapshots) (k : String) :
    isRelationshipDirty r1 k = isRelationshipDirty r2 k := by
  unfold isRelationshipDirty getRelR
  rw [hv, hs]

theorem changedGo_data_congr (r1 r2 : RecordState) (hv : r1.values = r2.values)
    (hs : r1.snapshots = r2.snapshots) (l : List (String × RelMeta)) :
    changedGo r1 l = changedGo r2 l := by
  induction l with
  | nil => rfl
  | cons q l ih =>
    unfold changedGo
    have hg : getRelR r1 q.1 = getRelR r2 q.1 := by unfold getRelR; rw [hv]
    rw [hg, isRelationshipDirty_congr r1 r2 hv hs, hs, ih]

/-- `changedRelationships` never reads the state-machine state: replacing a
record's state leaves its report unchanged. -/
theorem changedRelationships_mstate_irrelevant (st : Store) (id : RecordId)
    (s : MachineState) :
    changedRelationships (setMstate st id s) id = changedRelationships st id := by
  unfold changedRelationships
  unfold setMstate
  rw [upd_self]
  exact changedGo_data_congr { st id with mstate := s } (st id) rfl rfl
    ({ st id with mstate := s } : RecordState).relMeta

/-- In an in-flight, invalid or deleted state the
`dependentRelationshipDidChange` event leaves the entire store unchanged
(the handler is `Ember.K`). -/
theorem frozen_event_noop (st : Store) (id : RecordId) (c : Ctx)
    (h : isFrozen (st id).mstate = true) :
    sendDependentRelationshipDidChange st id c = Except.ok st := by
  unfold sendDependentRelationshipDidChange
  rw [if_pos h]

theorem changedGo_falsy_not_mem (r : RecordState) (name : String)
    (h : relTruthy (getRelR r name) = false) (l : List (String × RelMeta))
    (out : List (String × Option SnapValue × SnapValue))
    (hok : changedGo r l = Except.ok out) : lookupA out name = none := by
  induction l generalizing out with
  | nil =>
    unfold changedGo at hok
    rw [← Except.ok.inj hok]
    rfl
  | cons q l ih =>
    unfold changedGo at hok
    by_cases hdep : q.2.dependent = true
    · rw [if_pos hdep] at hok
      by_cases htr : relTruthy (getRelR r q.1) = true
      · rw [if_pos htr] at hok
        cases hd : isRelationshipDirty r q.1 with
        | error e =>
          rw [hd] at hok
          exact absurd hok (by simp [Bind.bind, Except.bind])
        | ok d =>
          rw [hd] at hok
          cases d with
          | false => exact ih out hok
          | true =>
            have hok2 : (currentSnapE q.2.kind (getRelR r q.1) >>= fun cur =>
              changedGo r l >>= fun rest =>
                Except.ok ((q.1, lookupA r.snapshots q.1, cur) :: rest)) =
                Except.ok out := hok
            cases hcur : currentSnapE q.2.kind (getRelR r q.1) with
            | error e =>
              rw [hcur] at hok2
              exact absurd hok2 (by simp [Bind.bind, Except.bind])
            | ok cur =>
              rw [hcur] at hok2
              cases hrest : changedGo r l with
              | error e =>
                rw [hrest] at hok2
                exact absurd hok2 (by simp [Bind.bind, Except.bind])
              | ok rest =>
                rw [hrest] at hok2
                have h3 : (q.1, lookupA r.snapshots q.1, cur) :: rest = out :=
                  Except.ok.inj hok2
                rw [← h3]
                unfold lookupA
                have hne : q.1 ≠ name := by
                  intro hcontra
                  rw [hcontra] at htr
                  rw [htr] at h
                  exact absurd h (by simp)
                rw [if_neg hne]
                exact ih rest hrest
      · rw [if_neg htr] at hok
        exact ih out hok
    · rw [if_neg hdep] at hok
      exact ih out hok

/-- C10: every dependent relationship whose current resolved value is null
or absent is omitted from a successful `changedRelationships` report, even
when its stored snapshot is non-null (the truthiness guard at source line
201 precedes the dirtiness check), so clearing a single-reference dependent
relationship to null is never reported as a changed relationship. -/
theorem changedRelationships_omits_falsy (st : Store) (id : RecordId)
    (name : String) (out : List (String × Option SnapValue × SnapValue))
    (h : getRelR (st id) name = some (RelValue.single none) ∨
      getRelR (st id) name = none)
    (hok : changedRelationships st id = Except.ok out) :
    lookupA out name = none := by
  apply changedGo_falsy_not_mem (st id) name ?_ (st id).relMeta out hok
  cases h with
  | inl h1 => rw [h1]; rfl
  | inr h1 => rw [h1]; rfl

/-- C9: when no snapshot entry exists yet for a relationship name, the
observer's guard (`if (name in dependentRelations)`, source line 217) stops
it: no `dependentRelationshipDidChange` event is sent to the state machine
and the store — including the entity's state — is unchanged. -/
theorem observer_no_snapshot_no_event (st : Store) (id : RecordId) (key : String)
    (h : lookupA (st id).snapshots key = none) :
    observerDidChange st id key = Except.ok (st, none) := by
  unfold observerDidChange mkObservedCtx
  rw [h]

/-- Witness for `observer_no_snapshot_no_event` at `storeC9`. -/
theorem observer_no_snapshot_no_event_witness :
    lookupA ((storeC9 0).snapshots) "children" = none ∧
    observerDidChange storeC9 0 "children" = Except.ok (storeC9, none) :=
  ⟨rfl, observer_no_snapshot_no_event storeC9 0 "children" rfl⟩

/-- C1 (counterexample): on `storeC1` — clean attributes, one snapshotted
dependent single-reference relationship whose current value is identical to
its snapshot and whose target is clean — every disjunct of the claimed
dirtiness condition is false (`claimDirty` is `false`), yet `isRecordDirty`
does not return `false`: it raises a `TypeError` (`.toArray()` on a single
reference), so the claimed if-and-only-if fails as stated. -/
theorem isRecordDirty_single_error :
    isRecordDirty storeC1 0 = Except.error JSErr.toArrayUndefined ∧
    claimDirty storeC1 0 = false :=
  ⟨rfl, rfl⟩

/-- C1 (amended, witness): `storeC1w` has only collection-valued snapshotted
dependent relationships and a dirty member, so `isRecordDirty` computes the
claim's disjunction, which is `true`. -/
theorem isRecordDirty_collectionOnly_witness :
    CollectionOnly (storeC1w 0) = true ∧
    isRecordDirty storeC1w 0 = Except.ok (claimDirty storeC1w 0) ∧
    claimDirty storeC1w 0 = true :=
  ⟨rfl, isRecordDirty_collectionOnly storeC1w 0 rfl, rfl⟩

/-- C2: rolling back `storeC2` — a locally modified entity whose dependent
`belongsTo` is snapshotted — does not terminate with a clean entity as the
claim requires: entering `loaded.saved` runs the addon's `savedSetup`,
whose `isRecordDirty` calls `.toArray()` on the single reference and raises
a `TypeError`, so `rollback` itself fails and `isDirty` cannot be `false`
afterwards. -/
theorem rollback_dependent_single_error :
    rollbackAttributes 3 storeC2 0 = Except.error JSErr.toArrayUndefined ∧
    isRecordDirty storeC2 0 = Except.ok true :=
  ⟨rfl, rfl⟩

/-- C3: on `storeC3` the collection `[2, 1]` holds exactly the snapshot's
members `[1, 2]` in reverse order, and the notification path's sorted
comparison sees no change (the event settles as `propertyWasReset`, leaving
the store untouched), yet `isRecordDirty` reports the entity dirty and
`changedRelationships` reports the relationship as changed: the snapshot
comparison used by dirtiness evaluation and change reporting
(`isRelationshipDirty`) is order-sensitive, contradicting the claim. -/
theorem reorder_marks_dirty :
    isRecordDirty storeC3 0 = Except.ok true ∧
    changedRelationships storeC3 0 =
      Except.ok [("children", some (SnapValue.array [1, 2]), SnapValue.array [2, 1])] ∧
    sortIds [2, 1] = sortIds [1, 2] ∧
    sendDependentRelationshipDidChange storeC3 0
      ⟨"children", RelValue.collection [2, 1], SnapValue.array [1, 2]⟩ =
      Except.ok storeC3 :=
  ⟨rfl, rfl, rfl, rfl⟩

/-- C4 (counterexample): on `storeC4` the dependent relationship "brewery"
fails to resolve during snapshot capture; `snapshotDependentRelations`
returns normally (`Except.ok`) instead of propagating the failure to its
caller, refuting the claim's "propagated, not swallowed" — while the
previous snapshot (record 1) is indeed left untouched. -/
theorem snapshotCapture_not_propagated :
    snapshotDependentRelations storeC4 0 = Except.ok (applyWrites storeC4 0 []) ∧
    lookupA (((applyWrites storeC4 0 []) 0).snapshots) "brewery" =
      some (SnapValue.record 1) ∧
    ((applyWrites storeC4 0 []) 0).mstate = MachineState.savedState ∧
    "brewery" ∈ (storeC4 0).failing :=
  ⟨rfl, rfl, rfl, by decide⟩

/-- C4 (amended, witness): `snapshotCapture_silent` applied to `storeC4`. -/
theorem snapshotCapture_silent_witness :
    ("brewery" ∈ (storeC4 0).failing) ∧
    (snapshotDependentRelations storeC4 0 =
        Except.ok (applyWrites storeC4 0 (captureWrites storeC4 0)) ∧
      lookupA (((applyWrites storeC4 0 (captureWrites storeC4 0)) 0).snapshots)
          "brewery" = lookupA ((storeC4 0).snapshots) "brewery" ∧
      ((applyWrites storeC4 0 (captureWrites storeC4 0)) 0).mstate =
        (storeC4 0).mstate) :=
  ⟨by decide, snapshotCapture_silent storeC4 0 "brewery" (by decide)⟩

/-- C5: while an entity is in an in-flight, invalid or deleted state, a
`dependentRelationshipDidChange` event leaves the whole store — in
particular the entity's state-machine state — unchanged, while the diff
data of `changedRelationships` is computed from the relationship values and
snapshots only, independent of the state, so a mutation still shows up in
it. -/
theorem frozen_state_event_noop (st : Store) (id : RecordId) (c : Ctx)
    (s : MachineState) (h : isFrozen (st id).mstate = true) :
    sendDependentRelationshipDidChange st id c = Except.ok st ∧
    changedRelationships (setMstate st id s) id = changedRelationships st id :=
  ⟨frozen_event_noop st id c h, changedRelationships_mstate_irrelevant st id s⟩

/-- Witness for `frozen_state_event_noop` at `storeC5` (in-flight, with a
divergent collection). -/
theorem frozen_state_event_noop_witness :
    isFrozen ((storeC5 0).mstate) = true ∧
    (sendDependentRelationshipDidChange storeC5 0
        ⟨"children", RelValue.collection [1], SnapValue.array [2]⟩ =
        Except.ok storeC5 ∧
      changedRelationships (setMstate storeC5 0 MachineState.savedState) 0 =
        changedRelationships storeC5 0) :=
  ⟨rfl, frozen_state_event_noop storeC5 0
    ⟨"children", RelValue.collection [1], SnapValue.array [2]⟩
    MachineState.savedState rfl⟩

/-- C6 (counterexample): on `storeC6` the dependent `belongsTo` "brewery"
is `null` at commit time; after the decorated `adapterDidCommit` completes
(no synthetic events: the only dependent relationship is single-valued) the
relationship's snapshot still holds the stale record 1 instead of being
re-snapshotted to the current (null) value, refuting "all dependent
relationships are re-snapshotted to their current values". -/
theorem adapterDidCommit_stale_snapshot :
    adapterDidCommit storeC6 0 = Except.ok (applyWrites storeC6 0 [], []) ∧
    ((applyWrites storeC6 0 []) 0).snapshots = [("brewery", SnapValue.record 1)] ∧
    getRelR (storeC6 0) "brewery" = some (RelValue.single none) :=
  ⟨rfl, rfl, rfl⟩

/-- C6 (amended, witness): `adapterDidCommit_after` applied to `storeC6w`. -/
theorem adapterDidCommit_after_witness :
    adapterDidCommit storeC6w 0 = Except.ok
      (applyWrites storeC6w 0 [("beers", SnapValue.array [1])],
        [⟨"beers", RelValue.collection [1], SnapValue.array [1]⟩]) ∧
    ([(⟨"beers", RelValue.collection [1], SnapValue.array [1]⟩ : Ctx)] =
      syntheticEvents storeC6w 0) :=
  ⟨rfl, (adapterDidCommit_after storeC6w
    (applyWrites storeC6w 0 [("beers", SnapValue.array [1])]) 0
    [⟨"beers", RelValue.collection [1], SnapValue.array [1]⟩] rfl).1⟩

/-- C7: on `storeC7` the dirtiness-evaluation comparison of the dependent
`belongsTo` "brewery" against its snapshot is not defined at all — it
raises a `TypeError` because `isRelationshipDirty` calls `.toArray()` on
the single reference — even though the identity comparison the claim
describes (and which the notification path uses via `Ember.compare` and the
`compare` mixin) is total and would report "unchanged" here. -/
theorem isRelationshipDirty_single_undefined :
    isRelationshipDirty (storeC7 0) "brewery" = Except.error JSErr.toArrayUndefined ∧
    emberEq (RelValue.single (some 1)) (SnapValue.record 1) = true ∧
    compareRecords 1 1 = 0 :=
  ⟨rfl, rfl, rfl⟩

/-- C8 (witness): on the already-clean graph `storeC8` a rollback is a
no-op on the whole store. -/
theorem rollbackAttributes_clean_noop_witness :
    CleanStore storeC8 ∧ rollbackAttributes 2 storeC8 0 = Except.ok storeC8 := by
  have hclean : CleanStore storeC8 := by
    intro i
    unfold storeC8
    by_cases hi : i = (0 : RecordId)
    · rw [if_pos hi]
      rfl
    · rw [if_neg hi]
      rfl
  exact ⟨hclean, rollbackAttributes_clean_noop storeC8 0 1 hclean⟩

/-- C10 (witness): on `storeC10` the nulled "brewery" relationship is
omitted from `changedRelationships` even though its stored snapshot is
non-null, while the divergent "beers" relationship is reported. -/
theorem changedRelationships_omits_falsy_witness :
    getRelR (storeC10 0) "brewery" = some (RelValue.single none) ∧
    changedRelationships storeC10 0 =
      Except.ok [("beers", some (SnapValue.array [3]), SnapValue.array [2])] ∧
    lookupA [("beers", (some (SnapValue.array [3]), SnapValue.array [2]))]
      "brewery" = none :=
  ⟨rfl, rfl, changedRelationships_omits_falsy storeC10 0 "brewery"
    [("beers", (some (SnapValue.array [3]), SnapValue.array [2]))]
    (Or.inl rfl) rfl⟩
